import Mathlib

/-!
Verification of the pipeline engine of a POSIX-style shell implemented in
Rust.  The development shallowly embeds the three core components of the
repository — the quote/escape-aware tokenizer, the segment parser, and the
pipeline executor — as executable Lean definitions translated from
`src/parser.rs` and `src/commands/executor.rs`, and proves the specified
properties about them.
-/

namespace Shell

/-! ## Tokenizer (src/parser.rs, `Tokenizer`) -/

/-- The five tokenizer states of `enum TokenizerState` in src/parser.rs. -/
inductive TokenizerState where
  | Normal
  | InSingleQuote
  | InDoubleQuote
  | Escaped
  | EscapedInDoubleQuote
deriving DecidableEq

/-- The mutable fields of `struct Tokenizer` that the state machine updates:
current state, emitted tokens, and the token being accumulated. -/
structure TokAcc where
  state : TokenizerState
  tokens : List String
  current : String
deriving DecidableEq

/-- The Unicode White_Space code points, i.e. the set recognised by Rust's
`char::is_whitespace`, used by `Tokenizer::handle_normal`. -/
def rustWhitespaceChars : List Char :=
  [Char.ofNat 0x09, Char.ofNat 0x0A, Char.ofNat 0x0B, Char.ofNat 0x0C,
   Char.ofNat 0x0D, ' ', Char.ofNat 0x85, Char.ofNat 0xA0, Char.ofNat 0x1680,
   Char.ofNat 0x2000, Char.ofNat 0x2001, Char.ofNat 0x2002, Char.ofNat 0x2003,
   Char.ofNat 0x2004, Char.ofNat 0x2005, Char.ofNat 0x2006, Char.ofNat 0x2007,
   Char.ofNat 0x2008, Char.ofNat 0x2009, Char.ofNat 0x200A, Char.ofNat 0x2028,
   Char.ofNat 0x2029, Char.ofNat 0x202F, Char.ofNat 0x205F, Char.ofNat 0x3000]

/-- Rust's `char::is_whitespace`. -/
def rustIsWhitespace (c : Char) : Bool :=
  rustWhitespaceChars.contains c

/-- `Tokenizer::finish_token`: emit the pending token only when non-empty. -/
def finishToken (a : TokAcc) : TokAcc :=
  if a.current.isEmpty then a
  else { a with tokens := a.tokens ++ [a.current], current := "" }

/-- `Tokenizer::handle_normal` — one character processed in the Normal state. -/
def handleNormal (c : Char) (a : TokAcc) : TokAcc :=
  if c = '\\' then { a with state := TokenizerState.Escaped }
  else if c = '\'' then { a with state := TokenizerState.InSingleQuote }
  else if c = '"' then { a with state := TokenizerState.InDoubleQuote }
  else if c = '|' then
    let a' := finishToken a
    { a' with tokens := a'.tokens ++ ["|"] }
  else if rustIsWhitespace c then finishToken a
  else { a with current := a.current.push c }

/-- `Tokenizer::handle_single_quote`. -/
def handleSingleQuote (c : Char) (a : TokAcc) : TokAcc :=
  if c = '\'' then { a with state := TokenizerState.Normal }
  else { a with current := a.current.push c }

/-- The main tokenizer loop `Tokenizer::tokenize`, consuming the input
character list.  The `InDoubleQuote` arm inlines `handle_double_quote`
because it peeks at the next unread character; `SPECIAL_CHARS` is the pair
double-quote / backslash. -/
def tokenizeAux : List Char → TokAcc → List String
  | [], a => (finishToken a).tokens
  | c :: rest, a =>
    match a.state with
    | TokenizerState.Normal => tokenizeAux rest (handleNormal c a)
    | TokenizerState.InSingleQuote => tokenizeAux rest (handleSingleQuote c a)
    | TokenizerState.InDoubleQuote =>
      if c = '\\' then
        match rest with
        | next :: _ =>
          if next = '"' ∨ next = '\\' then
            tokenizeAux rest { a with state := TokenizerState.EscapedInDoubleQuote }
          else
            tokenizeAux rest { a with current := a.current.push c }
        | [] => tokenizeAux rest { a with current := a.current.push c }
      else if c = '"' then
        tokenizeAux rest { a with state := TokenizerState.Normal }
      else
        tokenizeAux rest { a with current := a.current.push c }
    | TokenizerState.Escaped =>
      tokenizeAux rest { a with state := TokenizerState.Normal,
                                current := a.current.push c }
    | TokenizerState.EscapedInDoubleQuote =>
      tokenizeAux rest { a with state := TokenizerState.InDoubleQuote,
                                current := a.current.push c }

/-- `tokenize_input` of src/parser.rs. -/
def tokenize_input (input : String) : List String :=
  tokenizeAux input.data ⟨TokenizerState.Normal, [], ""⟩

/-! ## Parser (src/parser.rs, `parse_input` / `parse_command_line`) -/

/-- `enum RedirectType` of src/parser.rs. -/
inductive RedirectType where
  | StdoutTruncate
  | StdoutAppend
  | StderrTruncate
  | StderrAppend
deriving DecidableEq

/-- `RedirectType::from_operator`. -/
def fromOperator (op : String) : Option RedirectType :=
  if op = ">" ∨ op = "1>" then some RedirectType.StdoutTruncate
  else if op = ">>" ∨ op = "1>>" then some RedirectType.StdoutAppend
  else if op = "2>" then some RedirectType.StderrTruncate
  else if op = "2>>" then some RedirectType.StderrAppend
  else none

/-- Whether a redirect operator targets stdout (`true`) or stderr (`false`). -/
def RedirectType.stream : RedirectType → Bool
  | RedirectType.StdoutTruncate => true
  | RedirectType.StdoutAppend => true
  | RedirectType.StderrTruncate => false
  | RedirectType.StderrAppend => false

/-- `struct ParsedCommand` of src/parser.rs (paths kept as strings). -/
structure ParsedCommand where
  command : String
  args : List String
  stdout_redirect : Option String
  stderr_redirect : Option String
  stdout_redirect_append : Bool
  stderr_redirect_append : Bool
deriving DecidableEq

/-- The accumulator of the argument/redirect loop of `parse_command_line`:
collected arguments, the four redirect fields, and the number of
`Syntax error` diagnostics printed to stderr. -/
structure SegAcc where
  args : List String
  stdout_redirect : Option String
  stderr_redirect : Option String
  stdout_redirect_append : Bool
  stderr_redirect_append : Bool
  diags : Nat
deriving DecidableEq

/-- The initial accumulator of `parse_command_line`. -/
def SegAcc.init : SegAcc := ⟨[], none, none, false, false, 0⟩

/-- The `match redirect_type` statement of `parse_command_line`: record the
target path, overwriting the earlier target of the same stream. -/
def applyRedirect (rt : RedirectType) (path : String) (acc : SegAcc) : SegAcc :=
  match rt with
  | RedirectType.StdoutTruncate =>
    { acc with stdout_redirect := some path, stdout_redirect_append := false }
  | RedirectType.StdoutAppend =>
    { acc with stdout_redirect := some path, stdout_redirect_append := true }
  | RedirectType.StderrTruncate =>
    { acc with stderr_redirect := some path, stderr_redirect_append := false }
  | RedirectType.StderrAppend =>
    { acc with stderr_redirect := some path, stderr_redirect_append := true }

/-- The `while let Some(token) = iter.next()` loop of `parse_command_line`.
An operator consumes the next token as its target; an operator with no
following token only increments the diagnostic count; every other token is
appended to the argument list. -/
def segLoop : List String → SegAcc → SegAcc
  | [], acc => acc
  | t :: rest, acc =>
    match fromOperator t with
    | some rt =>
      match rest with
      | path :: rest' => segLoop rest' (applyRedirect rt path acc)
      | [] => { acc with diags := acc.diags + 1 }
    | none => segLoop rest { acc with args := acc.args ++ [t] }

/-- Assemble the `ParsedCommand` returned by `parse_command_line`. -/
def SegAcc.toCommand (cmd : String) (acc : SegAcc) : ParsedCommand :=
  ⟨cmd, acc.args, acc.stdout_redirect, acc.stderr_redirect,
   acc.stdout_redirect_append, acc.stderr_redirect_append⟩

/-- `parse_command_line` on one segment, also reporting the number of
diagnostics printed.  The command name is `tokens[0]`. -/
def parseSegment (cmd : String) (rest : List String) : ParsedCommand × Nat :=
  let acc := segLoop rest SegAcc.init
  (SegAcc.toCommand cmd acc, acc.diags)

/-- `parse_command_line` of src/parser.rs.  The Rust function indexes
`tokens[0]` unconditionally and would panic on an empty segment; the `[]`
case here returns `none` to mark that panic. -/
def parse_command_line : List String → Option ParsedCommand
  | [] => none
  | cmd :: rest => some (parseSegment cmd rest).1

/-- Rust's `slice::split` on the pipe token, as used by `parse_input`:
segments between (and around) occurrences of `"|"`, empty segments
included. -/
def splitPipes : List String → List (List String)
  | [] => [[]]
  | t :: rest =>
    let r := splitPipes rest
    if t = "|" then [] :: r
    else
      match r with
      | seg :: segs => (t :: seg) :: segs
      | [] => [[t]]

/-- The body of the `for token in tokens.split(..)` loop of `parse_input`:
skip an empty segment, otherwise parse it and push the stage. -/
def parseFoldStep (cmds : List ParsedCommand) (seg : List String) :
    List ParsedCommand :=
  if seg.isEmpty then cmds
  else
    match parse_command_line seg with
    | some pc => cmds ++ [pc]
    | none => cmds

/-- `parse_input` of src/parser.rs: tokenize, split on pipes, skip empty
segments, parse each remaining segment. -/
def parse_input (input : String) : List ParsedCommand :=
  (splitPipes (tokenize_input input)).foldl parseFoldStep []

/-! ## Executor (src/commands/executor.rs, `ShellExecutor`) -/

/-- `ShellStatus` of src/commands/command.rs. -/
inductive ShellStatus where
  | Continue
  | Exit
deriving DecidableEq

/-- `ShellError` of src/error.rs (io sources kept as message strings). -/
inductive ShellError where
  | Io (msg : String)
  | CommandNotFound (command : String)
  | DirectoryNotFound (path : String)
  | TypeNotFound (name : String)
  | HistoryArgRequired (flag : String)
  | HistoryInvalidArg (arg : String)
  | FileOpen (path : String) (source : String)
  | ProcessStart (command : String) (source : String)
deriving DecidableEq

/-- The `Display` text of each `ShellError` as given by its `#[error]`
attribute in src/error.rs; this is what `writeln!(file, "{}", e)` writes. -/
def ShellError.message : ShellError → String
  | ShellError.Io msg => "IO error: " ++ msg
  | ShellError.CommandNotFound command => command ++ ": command not found"
  | ShellError.DirectoryNotFound path =>
    "cd: " ++ path ++ ": No such file or directory"
  | ShellError.TypeNotFound name => name ++ ": not found"
  | ShellError.HistoryArgRequired flag =>
    "history: " ++ flag ++ ": argument required"
  | ShellError.HistoryInvalidArg arg =>
    "history: " ++ arg ++ ": numeric argument required"
  | ShellError.FileOpen path source => "Failed to open " ++ path ++ ": " ++ source
  | ShellError.ProcessStart command source =>
    "Failed to start " ++ command ++ ": " ++ source

/-- `enum PipeState` of src/commands/executor.rs.  A child process is
identified by the index at which it was spawned; a buffer holds the bytes
captured from a builtin. -/
inductive PipeState where
  | None
  | Process (child : Nat)
  | Buffer (data : String)
deriving DecidableEq

/-- Observable file-system effects of a pipeline run: redirect-file opens
(`open_file` of src/files.rs, truncating unless append) and writes. -/
inductive FileEvent where
  | openFile (path : String) (append : Bool)
  | writeFile (path : String) (data : String)
deriving DecidableEq

/-- The observable execution state threaded through the executor: the next
fresh child id, the ids spawned and waited on (in order), everything written
to the parent's stdout, the file events, and the bytes written to each
spawned child's stdin. -/
structure ExecState where
  nextChild : Nat
  spawned : List Nat
  waited : List Nat
  terminalOut : String
  events : List FileEvent
  childStdinFed : List (Nat × String)
deriving DecidableEq

/-- The executor's collaborators (`CommandRegistry`, the file system and the
OS), abstracted: builtin lookup, the builtin's behaviour (bytes written to
its output sink and its result), executable-path resolution, whether opening
a redirect path succeeds, and whether spawning an executable fails (with the
io cause). -/
structure ExecEnv where
  isBuiltin : String → Bool
  builtinRun : String → List String → String × Except ShellError ShellStatus
  executablePath : String → Option String
  fileOpenOk : String → Bool
  spawnFail : String → Option String

/-- `setup_file_redirect` of src/commands/executor.rs: open the redirect
target when one is given; the returned handle is modelled by the path. -/
def setup_file_redirect (env : ExecEnv) (redirect : Option String)
    (append : Bool) (s : ExecState) :
    ExecState × Except ShellError (Option String) :=
  match redirect with
  | some path =>
    if env.fileOpenOk path then
      ({ s with events := s.events ++ [FileEvent.openFile path append] },
       Except.ok (some path))
    else
      (s, Except.error (ShellError.FileOpen path ("open failed")))
  | none => (s, Except.ok none)

/-- The destination the builtin's `writer` box points at. -/
inductive BuiltinDest where
  | file (path : String)
  | buffer
  | stdout
deriving DecidableEq

/-- `ShellExecutor::handle_builtin`.  The `_input` channel is ignored, as in
the source.  Writer priority: explicit stdout redirect, else an in-memory
buffer when not the last stage, else the parent's stdout.  The stage's
stderr redirect is pre-opened but not handed to the builtin; on a builtin
failure it is re-opened in append mode and receives the failure text,
otherwise the failure propagates. -/
def handle_builtin (env : ExecEnv) (cmd : ParsedCommand) ( _input : PipeState)
    (is_last : Bool) (s : ExecState) :
    ExecState × Except ShellError (PipeState × ShellStatus) :=
  match setup_file_redirect env cmd.stdout_redirect cmd.stdout_redirect_append s with
  | (s1, Except.error e) => (s1, Except.error e)
  | (s1, Except.ok so) =>
    let dest : BuiltinDest :=
      match so with
      | some path => BuiltinDest.file path
      | none => if !is_last then BuiltinDest.buffer else BuiltinDest.stdout
    match setup_file_redirect env cmd.stderr_redirect cmd.stderr_redirect_append s1 with
    | (s2, Except.error e) => (s2, Except.error e)
    | (s2, Except.ok _) =>
      let res := env.builtinRun cmd.command cmd.args
      let s3 :=
        match dest with
        | BuiltinDest.file path =>
          { s2 with events := s2.events ++ [FileEvent.writeFile path res.1] }
        | BuiltinDest.stdout => { s2 with terminalOut := s2.terminalOut ++ res.1 }
        | BuiltinDest.buffer => s2
      match res.2 with
      | Except.ok status =>
        if !is_last && cmd.stdout_redirect.isNone then
          (s3, Except.ok (PipeState.Buffer res.1, status))
        else
          (s3, Except.ok (PipeState.None, status))
      | Except.error e =>
        match setup_file_redirect env cmd.stderr_redirect true s3 with
        | (s4, Except.error e2) => (s4, Except.error e2)
        | (s4, Except.ok (some path)) =>
          ({ s4 with events := s4.events ++
              [FileEvent.writeFile path (ShellError.message e ++ "\n")] },
           Except.ok (PipeState.None, ShellStatus.Continue))
        | (s4, Except.ok none) => (s4, Except.error e)

/-- `ShellExecutor::handle_external`.  Resolution failure and spawn failure
propagate; a stage that is not last and has no stdout redirect pipes forward
(`creates_pipe`) and is not waited on here; any other stage is waited on
before returning.  A buffer input is written to the child's stdin right
after the spawn. -/
def handle_external (env : ExecEnv) (cmd : ParsedCommand) (input : PipeState)
    (is_last : Bool) (s : ExecState) :
    ExecState × Except ShellError (PipeState × ShellStatus) :=
  match env.executablePath cmd.command with
  | none => (s, Except.error (ShellError.CommandNotFound cmd.command))
  | some full_path =>
    match setup_file_redirect env cmd.stdout_redirect cmd.stdout_redirect_append s with
    | (s1, Except.error e) => (s1, Except.error e)
    | (s1, Except.ok so) =>
      let creates_pipe := so.isNone && !is_last
      match setup_file_redirect env cmd.stderr_redirect cmd.stderr_redirect_append s1 with
      | (s2, Except.error e) => (s2, Except.error e)
      | (s2, Except.ok _) =>
        match env.spawnFail full_path with
        | some cause => (s2, Except.error (ShellError.ProcessStart cmd.command cause))
        | none =>
          let child := s2.nextChild
          let s3 := { s2 with nextChild := child + 1,
                              spawned := s2.spawned ++ [child] }
          let s4 :=
            match input with
            | PipeState.Buffer data =>
              { s3 with childStdinFed := s3.childStdinFed ++ [(child, data)] }
            | _ => s3
          if creates_pipe then
            (s4, Except.ok (PipeState.Process child, ShellStatus.Continue))
          else
            ({ s4 with waited := s4.waited ++ [child] },
             Except.ok (PipeState.None, ShellStatus.Continue))

/-- The stage loop of `ShellExecutor::run` and, on `[]`, the final reap of a
carried running process.  An `Exit` status returns immediately; an error
propagates with the side effects performed so far. -/
def runAux (env : ExecEnv) :
    List ParsedCommand → PipeState → ExecState →
    ExecState × Except ShellError ShellStatus
  | [], prev, s =>
    match prev with
    | PipeState.Process child =>
      ({ s with waited := s.waited ++ [child] }, Except.ok ShellStatus.Continue)
    | _ => (s, Except.ok ShellStatus.Continue)
  | cmd :: rest, prev, s =>
    let is_last := rest.isEmpty
    let step :=
      if env.isBuiltin cmd.command then handle_builtin env cmd prev is_last s
      else handle_external env cmd prev is_last s
    match step with
    | (s', Except.error e) => (s', Except.error e)
    | (s', Except.ok (newState, status)) =>
      match status with
      | ShellStatus.Exit => (s', Except.ok ShellStatus.Exit)
      | ShellStatus.Continue => runAux env rest newState s'

/-- `ShellExecutor::run`. -/
def run (env : ExecEnv) (pipeline : List ParsedCommand) (s : ExecState) :
    ExecState × Except ShellError ShellStatus :=
  if pipeline.isEmpty then (s, Except.ok ShellStatus.Continue)
  else runAux env pipeline PipeState.None s

/-! ## Concrete instances used to evaluate the executor -/

/-- A stage with no arguments and no redirects. -/
def extCmd (name : String) : ParsedCommand := ⟨name, [], none, none, false, false⟩

/-- An environment in which every command is external, resolvable and
spawnable, and every file opens. -/
def allExternalEnv : ExecEnv :=
  ⟨fun _ => false, fun _ _ => ("", Except.ok ShellStatus.Continue),
   fun c => some ("/bin/" ++ c), fun _ => true, fun _ => none⟩

/-- An environment in which `echo` is a builtin that writes `hi` and
succeeds, `cat` is the only resolvable external command, and every file
opens. -/
def echoEnv : ExecEnv :=
  ⟨fun c => c == "echo", fun _ _ => ("hi\n", Except.ok ShellStatus.Continue),
   fun c => if c == "cat" then some ("/bin/cat") else none,
   fun _ => true, fun _ => none⟩

/-- The initial execution state: no child spawned, nothing written. -/
def execState0 : ExecState := ⟨0, [], [], "", [], []⟩

/-- An environment in which `cd` is a builtin that writes nothing and fails
with a directory-not-found error; every file opens. -/
def cdFailEnv : ExecEnv :=
  ⟨fun c => c == "cd",
   fun _ _ => ("", Except.error (ShellError.DirectoryNotFound ("/nope"))),
   fun c => some ("/bin/" ++ c), fun _ => true, fun _ => none⟩

/-- `cd /nope 2> err.txt`: a failing builtin stage with a stderr redirect. -/
def cdCmdRedir : ParsedCommand :=
  ⟨"cd", ["/nope"], none, some ("err.txt"), false, false⟩

/-- `cd /nope`: a failing builtin stage without redirects. -/
def cdCmdPlain : ParsedCommand := ⟨"cd", ["/nope"], none, none, false, false⟩

/-! ## Theorems -/

/-- Recording a redirect leaves the collected arguments unchanged. -/
lemma applyRedirect_args (rt : RedirectType) (t : String) (acc : SegAcc) :
    (applyRedirect rt t acc).args = acc.args := by
  cases rt <;> rfl

/-- Recording a redirect leaves the diagnostic count unchanged. -/
lemma applyRedirect_diags (rt : RedirectType) (t : String) (acc : SegAcc) :
    (applyRedirect rt t acc).diags = acc.diags := by
  cases rt <;> rfl

/-- Recording a redirect commutes with replacing the argument list. -/
lemma applyRedirect_args_set (rt : RedirectType) (t : String) (acc : SegAcc)
    (x : List String) :
    applyRedirect rt t { acc with args := x } =
      { applyRedirect rt t acc with args := x } := by
  cases rt <;> rfl

/-- A run of non-operator tokens is consumed by appending each one, in
order, to the argument list. -/
lemma segLoop_append_plain (pre l : List String) (acc : SegAcc)
    (h : ∀ t ∈ pre, fromOperator t = none) :
    segLoop (pre ++ l) acc = segLoop l { acc with args := acc.args ++ pre } := by
  induction pre generalizing acc with
  | nil => simp
  | cons t ts ih =>
    have ht : fromOperator t = none := h t (by simp)
    have hts : ∀ x ∈ ts, fromOperator x = none := fun x hx => h x (by simp [hx])
    simp only [List.cons_append, segLoop, ht]
    rw [ih _ hts]
    congr 1
    simp

/-- A list of non-operator tokens is consumed entirely as arguments. -/
lemma segLoop_plain (l : List String) (acc : SegAcc)
    (h : ∀ t ∈ l, fromOperator t = none) :
    segLoop l acc = { acc with args := acc.args ++ l } := by
  have := segLoop_append_plain l [] acc h
  simpa using this

/-- A redirect operator consumes the next token as its target. -/
lemma segLoop_op (op : String) (rt : RedirectType) (tgt : String)
    (l : List String) (acc : SegAcc) (h : fromOperator op = some rt) :
    segLoop (op :: tgt :: l) acc = segLoop l (applyRedirect rt tgt acc) := by
  simp [segLoop, h]

/-- A trailing redirect operator with no target only counts a diagnostic. -/
lemma segLoop_trailing_op (op : String) (rt : RedirectType) (acc : SegAcc)
    (h : fromOperator op = some rt) :
    segLoop [op] acc = { acc with diags := acc.diags + 1 } := by
  simp [segLoop, h]

/-- C1: on the external-to-external pipeline `false | true` (no redirects),
`run` does return status `Continue`, but the first child — spawned with id
0 for the piping stage — is never waited on: only the second child (id 1)
is reaped.  The carried-process reap at the end of `run` never fires, since
the last stage never hands a `Process` forward, so the claim's "every
spawned child has been waited on" fails on the code. -/
theorem false_true_pipeline_first_child_unreaped :
    (run allExternalEnv [extCmd ("false"), extCmd ("true")] execState0).2 =
      Except.ok ShellStatus.Continue ∧
    (run allExternalEnv [extCmd ("false"), extCmd ("true")] execState0).1.spawned =
      [0, 1] ∧
    (run allExternalEnv [extCmd ("false"), extCmd ("true")] execState0).1.waited =
      [1] ∧
    ¬ (0 ∈ (run allExternalEnv [extCmd ("false"), extCmd ("true")] execState0).1.waited) := by
  refine ⟨rfl, rfl, rfl, ?_⟩
  decide

/-- C4: when the executor reaches an external stage whose command name the
catalog cannot resolve, `runAux` returns the command-not-found error with
the execution state unchanged — no file is opened, no child is spawned, and
no later stage of the pipeline runs — regardless of any redirect on the
stage and of the incoming channel state. -/
theorem unresolvable_external_propagates_not_found
    (env : ExecEnv) (cmd : ParsedCommand) (rest : List ParsedCommand)
    (prev : PipeState) (s : ExecState)
    (hb : env.isBuiltin cmd.command = false)
    (hres : env.executablePath cmd.command = none) :
    runAux env (cmd :: rest) prev s =
      (s, Except.error (ShellError.CommandNotFound cmd.command)) := by
  simp [runAux, handle_external, hb, hres]

/-- Closed instance of the command-not-found propagation theorem: a
two-stage pipeline whose first stage is unresolvable returns the
command-not-found error with nothing spawned. -/
theorem unresolvable_external_propagates_not_found_witness :
    runAux echoEnv [extCmd ("echo2"), extCmd ("cat")] PipeState.None execState0 =
      (execState0, Except.error (ShellError.CommandNotFound ("echo2"))) :=
  unresolvable_external_propagates_not_found echoEnv (extCmd ("echo2"))
    [extCmd ("cat")] PipeState.None execState0 (by decide) (by decide)

/-- C10: a builtin stage never reads the incoming inter-stage channel:
`handle_builtin` produces identical state, channel and status for any two
incoming channel states, and consequently `runAux` on a pipeline whose head
is a builtin is insensitive to the carried channel state — the output of
whatever precedes a builtin is silently discarded. -/
theorem handle_builtin_ignores_input
    (env : ExecEnv) (cmd : ParsedCommand) (input input' : PipeState)
    (is_last : Bool) (s : ExecState) :
    handle_builtin env cmd input is_last s =
      handle_builtin env cmd input' is_last s ∧
    (env.isBuiltin cmd.command = true →
      ∀ rest : List ParsedCommand,
        runAux env (cmd :: rest) input s = runAux env (cmd :: rest) input' s) := by
  constructor
  · rfl
  · intro hb rest
    simp only [runAux, hb, if_pos]
    rfl

/-- Closed instance of the builtin-input-insensitivity theorem: `echo` as
the head of a pipeline behaves the same on an empty channel and on a
buffered channel. -/
theorem handle_builtin_ignores_input_witness :
    runAux echoEnv [extCmd ("echo")] PipeState.None execState0 =
      runAux echoEnv [extCmd ("echo")] (PipeState.Buffer ("xyz")) execState0 :=
  (handle_builtin_ignores_input echoEnv (extCmd ("echo")) PipeState.None
    (PipeState.Buffer ("xyz")) true execState0).2 (by decide) []

/-- C2: in a two-stage pipeline whose first stage is a builtin with no
stdout redirect and whose second stage is external, the builtin's output is
captured in an in-memory buffer — nothing reaches the terminal and no child
exists yet — and the external stage's stdin then receives exactly the bytes
of that buffer. -/
theorem builtin_buffer_feeds_external_stdin
    (env : ExecEnv) (b e : ParsedCommand) (s : ExecState) (out fp : String)
    (hb : env.isBuiltin b.command = true)
    (hso : b.stdout_redirect = none)
    (hrun : env.builtinRun b.command b.args = (out, Except.ok ShellStatus.Continue))
    (hopen : ∀ p, env.fileOpenOk p = true)
    (he : env.isBuiltin e.command = false)
    (hres : env.executablePath e.command = some fp)
    (hspawn : env.spawnFail fp = none) :
    (∃ s1, handle_builtin env b PipeState.None false s =
        (s1, Except.ok (PipeState.Buffer out, ShellStatus.Continue)) ∧
      s1.terminalOut = s.terminalOut ∧ s1.nextChild = s.nextChild ∧
      s1.childStdinFed = s.childStdinFed) ∧
    (run env [b, e] s).1.childStdinFed = s.childStdinFed ++ [(s.nextChild, out)] ∧
    (run env [b, e] s).1.terminalOut = s.terminalOut ∧
    (run env [b, e] s).2 = Except.ok ShellStatus.Continue := by
  rcases hbe : b.stderr_redirect with _ | p
  all_goals rcases heo : e.stdout_redirect with _ | q
  all_goals rcases hee : e.stderr_redirect with _ | r
  all_goals
    simp [run, runAux, handle_builtin, handle_external, setup_file_redirect,
      hb, hso, hrun, he, hres, hspawn, hbe, heo, hee, hopen]

/-- Closed instance of the buffer-feeding theorem: `echo | cat` with the
`echo` builtin writing `hi\n` feeds exactly `hi\n` to the `cat` child's
stdin, writes nothing to the terminal, and returns Continue. -/
theorem builtin_buffer_feeds_external_stdin_witness :
    (run echoEnv [extCmd ("echo"), extCmd ("cat")] execState0).1.childStdinFed =
      [(0, "hi\n")] ∧
    (run echoEnv [extCmd ("echo"), extCmd ("cat")] execState0).1.terminalOut = "" ∧
    (run echoEnv [extCmd ("echo"), extCmd ("cat")] execState0).2 =
      Except.ok ShellStatus.Continue := by
  have h := builtin_buffer_feeds_external_stdin echoEnv (extCmd ("echo"))
    (extCmd ("cat")) execState0 ("hi\n") ("/bin/cat") rfl rfl rfl
    (fun _ => rfl) rfl rfl rfl
  exact ⟨h.2.1, h.2.2.1, h.2.2.2⟩

/-- C3: when a builtin stage's operation fails, the failure is swallowed
exactly when the stage redirected stderr: with a stderr-redirect target the
failure's display text is appended to that target (the file is re-opened in
append mode and receives the message) and the pipeline continues as
Continue; without one the failure propagates out of the stage loop, no
child is spawned or waited, and the remaining stages never run. -/
theorem builtin_failure_stderr_redirect_policy
    (env : ExecEnv) (cmd : ParsedCommand) (rest : List ParsedCommand)
    (prev : PipeState) (s : ExecState) (out : String) (err : ShellError)
    (hb : env.isBuiltin cmd.command = true)
    (hrun : env.builtinRun cmd.command cmd.args = (out, Except.error err))
    (hopen : ∀ p, env.fileOpenOk p = true) :
    (∀ tgt, cmd.stderr_redirect = some tgt →
      ∃ s', runAux env (cmd :: rest) prev s = runAux env rest PipeState.None s' ∧
        (∃ pre, s'.events = pre ++ [FileEvent.openFile tgt true,
          FileEvent.writeFile tgt (ShellError.message err ++ "\n")]) ∧
        s'.spawned = s.spawned) ∧
    (cmd.stderr_redirect = none →
      ∃ s', runAux env (cmd :: rest) prev s = (s', Except.error err) ∧
        s'.spawned = s.spawned ∧ s'.waited = s.waited) := by
  constructor
  · intro tgt htgt
    rcases hso : cmd.stdout_redirect with _ | p
    · cases hr : rest.isEmpty
      · simp [runAux, handle_builtin, setup_file_redirect, hb, hrun, hopen,
          hso, htgt, hr]
        exact ⟨_, rfl,
          ⟨s.events ++ [FileEvent.openFile tgt cmd.stderr_redirect_append],
           by simp⟩, rfl⟩
      · simp [runAux, handle_builtin, setup_file_redirect, hb, hrun, hopen,
          hso, htgt, hr]
        exact ⟨_, rfl,
          ⟨s.events ++ [FileEvent.openFile tgt cmd.stderr_redirect_append],
           by simp⟩, rfl⟩
    · cases hr : rest.isEmpty
      · simp [runAux, handle_builtin, setup_file_redirect, hb, hrun, hopen,
          hso, htgt, hr]
        exact ⟨_, rfl,
          ⟨s.events ++ [FileEvent.openFile p cmd.stdout_redirect_append,
            FileEvent.openFile tgt cmd.stderr_redirect_append,
            FileEvent.writeFile p out], by simp⟩, rfl⟩
      · simp [runAux, handle_builtin, setup_file_redirect, hb, hrun, hopen,
          hso, htgt, hr]
        exact ⟨_, rfl,
          ⟨s.events ++ [FileEvent.openFile p cmd.stdout_redirect_append,
            FileEvent.openFile tgt cmd.stderr_redirect_append,
            FileEvent.writeFile p out], by simp⟩, rfl⟩
  · intro hse
    rcases hso : cmd.stdout_redirect with _ | p
    · cases hr : rest.isEmpty
      · simp [runAux, handle_builtin, setup_file_redirect, hb, hrun, hopen,
          hso, hse, hr]
      · simp [runAux, handle_builtin, setup_file_redirect, hb, hrun, hopen,
          hso, hse, hr]
    · cases hr : rest.isEmpty
      · simp [runAux, handle_builtin, setup_file_redirect, hb, hrun, hopen,
          hso, hse, hr]
      · simp [runAux, handle_builtin, setup_file_redirect, hb, hrun, hopen,
          hso, hse, hr]

/-- Closed instance of the builtin-failure policy theorem: `cd /nope 2>
err.txt` swallows the failure into the redirect file and continues, while
`cd /nope` propagates the error with no child spawned. -/
theorem builtin_failure_stderr_redirect_policy_witness :
    (∃ s', runAux cdFailEnv [cdCmdRedir] PipeState.None execState0 =
        runAux cdFailEnv [] PipeState.None s' ∧
      (∃ pre, s'.events = pre ++ [FileEvent.openFile ("err.txt") true,
        FileEvent.writeFile ("err.txt")
          (ShellError.message (ShellError.DirectoryNotFound ("/nope")) ++ "\n")]) ∧
      s'.spawned = []) ∧
    (∃ s', runAux cdFailEnv [cdCmdPlain] PipeState.None execState0 =
        (s', Except.error (ShellError.DirectoryNotFound ("/nope"))) ∧
      s'.spawned = [] ∧ s'.waited = []) := by
  constructor
  · exact (builtin_failure_stderr_redirect_policy cdFailEnv cdCmdRedir []
      PipeState.None execState0 "" (ShellError.DirectoryNotFound ("/nope"))
      rfl rfl (fun _ => rfl)).1 ("err.txt") rfl
  · exact (builtin_failure_stderr_redirect_policy cdFailEnv cdCmdPlain []
      PipeState.None execState0 "" (ShellError.DirectoryNotFound ("/nope"))
      rfl rfl (fun _ => rfl)).2 rfl

/-- C5: tokens not consumed by a redirection are collected as arguments in
their original order even across interleaved redirection pairs, and a later
redirect records its target overwriting the earlier target of the same
stream: concretely, `echo hi > out.txt world` parses to arguments
`["hi", "world"]` with stdout target `out.txt`, append off; generally, a
segment `cmd pre op1 t1 mid op2 t2 post` (with `pre`, `mid`, `post`
operator-free) parses to arguments `pre ++ mid ++ post` with the redirect
fields obtained by recording `t1` then `t2`; and recording two targets for
the same stream keeps only the later one. -/
theorem redirect_interleaving_and_overwrite :
    (parse_input ("echo hi > out.txt world") =
      [⟨"echo", ["hi", "world"], some ("out.txt"), none, false, false⟩]) ∧
    (∀ (cmd t1 t2 op1 op2 : String) (pre mid post : List String)
      (rt1 rt2 : RedirectType),
      fromOperator op1 = some rt1 → fromOperator op2 = some rt2 →
      (∀ t ∈ pre, fromOperator t = none) → (∀ t ∈ mid, fromOperator t = none) →
      (∀ t ∈ post, fromOperator t = none) →
      parse_command_line (cmd :: (pre ++ op1 :: t1 :: (mid ++ op2 :: t2 :: post))) =
        some (SegAcc.toCommand cmd
          { applyRedirect rt2 t2 (applyRedirect rt1 t1 SegAcc.init) with
            args := pre ++ mid ++ post })) ∧
    (∀ (rt1 rt2 : RedirectType) (t1 t2 : String) (acc : SegAcc),
      RedirectType.stream rt1 = RedirectType.stream rt2 →
      applyRedirect rt2 t2 (applyRedirect rt1 t1 acc) = applyRedirect rt2 t2 acc) := by
  refine ⟨by decide, ?_, ?_⟩
  · intro cmd t1 t2 op1 op2 pre mid post rt1 rt2 h1 h2 hpre hmid hpost
    simp only [parse_command_line, parseSegment, Option.some.injEq]
    rw [segLoop_append_plain pre _ _ hpre, segLoop_op _ _ _ _ _ h1,
      segLoop_append_plain mid _ _ hmid, segLoop_op _ _ _ _ _ h2,
      segLoop_plain post _ hpost]
    cases rt1 <;> cases rt2 <;>
      simp [SegAcc.toCommand, applyRedirect, SegAcc.init]
  · intro rt1 rt2 t1 t2 acc h
    cases rt1 <;> cases rt2 <;>
      simp_all [RedirectType.stream, applyRedirect]

/-- Closed instance of the interleaving/overwrite theorem: in
`echo hi > a >> b w` the argument `w` after both redirect pairs still lands
in the argument list after `hi`, and the later stdout redirect `>> b`
overwrites the earlier `> a`. -/
theorem redirect_interleaving_and_overwrite_witness :
    parse_command_line (["echo", "hi", ">", "a", ">>", "b", "w"]) =
      some (SegAcc.toCommand ("echo")
        { applyRedirect RedirectType.StdoutAppend ("b")
            (applyRedirect RedirectType.StdoutTruncate ("a") SegAcc.init) with
          args := ["hi"] ++ [] ++ ["w"] }) :=
  redirect_interleaving_and_overwrite.2.1 ("echo") ("a") ("b") (">") (">>")
    (["hi"]) ([]) (["w"]) RedirectType.StdoutTruncate RedirectType.StdoutAppend
    (by decide) (by decide) (by decide) (by decide) (by decide)

/-- C6: a segment whose final token is a redirection operator with no
following target still parses: no error value is returned, no redirect
target is recorded for the dangling operator, the other tokens become the
stage's arguments, and exactly one diagnostic is counted. -/
theorem trailing_redirect_operator_dropped
    (cmd op : String) (rest : List String) (rt : RedirectType)
    (hop : fromOperator op = some rt)
    (hrest : ∀ t ∈ rest, fromOperator t = none) :
    (∀ acc : SegAcc, segLoop [op] acc = { acc with diags := acc.diags + 1 }) ∧
    parse_command_line (cmd :: (rest ++ [op])) =
      some (⟨cmd, rest, none, none, false, false⟩ : ParsedCommand) ∧
    (parseSegment cmd (rest ++ [op])).2 = 1 := by
  have hseg : segLoop (rest ++ [op]) SegAcc.init =
      ⟨rest, none, none, false, false, 1⟩ := by
    rw [segLoop_append_plain rest [op] _ hrest, segLoop_trailing_op op rt _ hop]
    simp [SegAcc.init]
  refine ⟨fun acc => segLoop_trailing_op op rt acc hop, ?_, ?_⟩
  · simp [parse_command_line, parseSegment, hseg, SegAcc.toCommand]
  · simp [parseSegment, hseg]

/-- Closed instance of the trailing-operator theorem: `echo hi >` parses to
a stage `echo` with argument `hi`, no redirect, and one diagnostic. -/
theorem trailing_redirect_operator_dropped_witness :
    parse_command_line (["echo", "hi", ">"]) =
      some (⟨"echo", ["hi"], none, none, false, false⟩ : ParsedCommand) ∧
    (parseSegment ("echo") (["hi"] ++ [">"])).2 = 1 :=
  (trailing_redirect_operator_dropped ("echo") (">") (["hi"])
    RedirectType.StdoutTruncate (by decide) (by decide)).2

/-- The segment fold of `parse_input` accumulates exactly the parses of the
non-empty segments, in order. -/
lemma parse_fold_eq (segs : List (List String)) (acc : List ParsedCommand) :
    segs.foldl parseFoldStep acc =
      acc ++ (segs.filter (fun seg => !seg.isEmpty)).filterMap parse_command_line := by
  induction segs generalizing acc with
  | nil => simp
  | cons seg segs ih =>
    rw [List.foldl_cons]
    cases seg with
    | nil =>
      have hstep : parseFoldStep acc [] = acc := rfl
      rw [hstep, ih]
      simp
    | cons c r =>
      have hstep : parseFoldStep acc (c :: r) = acc ++ [(parseSegment c r).1] := rfl
      rw [hstep, ih]
      simp [List.filter_cons, parse_command_line]

/-- `filterMap` keeps every element on which the function is `some`. -/
lemma filterMap_parse_length (l : List (List String))
    (h : ∀ seg ∈ l, (parse_command_line seg).isSome = true) :
    (l.filterMap parse_command_line).length = l.length := by
  induction l with
  | nil => simp
  | cons seg segs ih =>
    have hs := h seg (by simp)
    rcases ho : parse_command_line seg with _ | pc
    · rw [ho] at hs
      simp at hs
    · simp [List.filterMap_cons, ho, ih (fun x hx => h x (by simp [hx]))]

/-- C7: `parse_input` is total and order-preserving: it equals the
pipe-split token segments with the empty ones discarded, each remaining
segment parsed in textual left-to-right order; `parse_command_line`
succeeds on every non-empty segment (so the `tokens[0]` access never
panics), and no non-empty segment is dropped. -/
theorem parse_input_total_and_ordered (input : String) :
    parse_input input =
      ((splitPipes (tokenize_input input)).filter
        (fun seg => !seg.isEmpty)).filterMap parse_command_line ∧
    (∀ seg : List String, seg ≠ [] → (parse_command_line seg).isSome = true) ∧
    (parse_input input).length =
      ((splitPipes (tokenize_input input)).filter
        (fun seg => !seg.isEmpty)).length := by
  have hsome : ∀ seg : List String, seg ≠ [] →
      (parse_command_line seg).isSome = true := by
    intro seg h
    cases seg with
    | nil => exact absurd rfl h
    | cons c r => simp [parse_command_line]
  have h1 : parse_input input =
      ((splitPipes (tokenize_input input)).filter
        (fun seg => !seg.isEmpty)).filterMap parse_command_line := by
    unfold parse_input
    simpa using parse_fold_eq (splitPipes (tokenize_input input)) []
  refine ⟨h1, hsome, ?_⟩
  rw [h1]
  apply filterMap_parse_length
  intro seg hseg
  apply hsome
  have hmem := List.mem_filter.mp hseg
  intro hnil
  rw [hnil] at hmem
  simp at hmem

/-- Closed instance of the parser-totality theorem: a non-empty segment
parses successfully, and on `ls | | cat` (an empty middle segment) the two
non-empty segments yield the two stages in order. -/
theorem parse_input_total_and_ordered_witness :
    (parse_command_line (["ls"])).isSome = true :=
  (parse_input_total_and_ordered ("")).2.1 (["ls"]) (by decide)

/-- C8: a backslash read in the Normal state is not emitted and escapes the
immediately following character, which is appended literally to the current
token — for any following character, including the pipe: `a\|b` tokenizes
to the single token `a|b` and parses as a single one-stage pipeline, never
split at the escaped pipe. -/
theorem backslash_escapes_next_character :
    (tokenize_input ("a\\|b") = ["a|b"]) ∧
    (parse_input ("a\\|b") =
      [⟨"a|b", [], none, none, false, false⟩]) ∧
    (∀ (tokens : List String) (cur : String) (c : Char) (l : List Char),
      tokenizeAux ('\\' :: c :: l) ⟨TokenizerState.Normal, tokens, cur⟩ =
        tokenizeAux l ⟨TokenizerState.Normal, tokens, cur.push c⟩) := by
  refine ⟨by decide, by decide, ?_⟩
  intro tokens cur c l
  rfl

/-- The accumulated token is preserved verbatim by whitespace characters in
the Normal state when nothing is pending. -/
lemma tokenizeAux_whitespace (l : List Char) (tokens : List String)
    (h : ∀ c ∈ l, rustIsWhitespace c = true) :
    tokenizeAux l ⟨TokenizerState.Normal, tokens, ""⟩ = tokens := by
  induction l with
  | nil => rfl
  | cons c cs ih =>
    have hc := h c (by simp)
    have h1 : c ≠ '\\' := by
      rintro rfl
      revert hc
      decide
    have h2 : c ≠ '\'' := by
      rintro rfl
      revert hc
      decide
    have h3 : c ≠ '"' := by
      rintro rfl
      revert hc
      decide
    have h4 : c ≠ '|' := by
      rintro rfl
      revert hc
      decide
    have hemp : ("" : String).isEmpty = true := rfl
    have hstep : handleNormal c ⟨TokenizerState.Normal, tokens, ""⟩ =
        ⟨TokenizerState.Normal, tokens, ""⟩ := by
      simp [handleNormal, h1, h2, h3, h4, hc, finishToken, hemp]
    calc tokenizeAux (c :: cs) ⟨TokenizerState.Normal, tokens, ""⟩
        = tokenizeAux cs (handleNormal c ⟨TokenizerState.Normal, tokens, ""⟩) := rfl
      _ = tokenizeAux cs ⟨TokenizerState.Normal, tokens, ""⟩ := by rw [hstep]
      _ = tokens := ih (fun x hx => h x (by simp [hx]))

/-- C9: the tokenizer flushes a pending token only when it is non-empty:
adjacent quoted strings concatenate into one token (`"x"'y'` gives the
single token `xy`), an empty quoted string alone contributes no token, and
every input made only of whitespace (or empty) tokenizes to no tokens and
parses to an empty pipeline. -/
theorem token_flush_only_nonempty :
    (tokenize_input ("\"x\"'y'") = ["xy"]) ∧
    (tokenize_input ("\"\"") = []) ∧
    (∀ a : TokAcc, a.current = "" → finishToken a = a) ∧
    (∀ a : TokAcc, a.current ≠ "" →
      (finishToken a).tokens = a.tokens ++ [a.current]) ∧
    (∀ s : String, (∀ c ∈ s.data, rustIsWhitespace c = true) →
      tokenize_input s = [] ∧ parse_input s = []) := by
  refine ⟨by decide, by decide, ?_, ?_, ?_⟩
  · intro a h
    have hemp : ("" : String).isEmpty = true := rfl
    simp [finishToken, h, hemp]
  · intro a h
    have hne : a.current.isEmpty = false := by
      rcases hc : a.current.isEmpty
      · rfl
      · exact absurd ((String.isEmpty_iff a.current).mp hc) h
    simp [finishToken, hne]
  · intro s h
    have htok : tokenize_input s = [] :=
      tokenizeAux_whitespace s.data [] h
    refine ⟨htok, ?_⟩
    simp [parse_input, htok, splitPipes, parseFoldStep]

/-- Closed instance of the flush/whitespace theorem: the all-whitespace
input `" \t "` tokenizes to nothing and parses to the empty pipeline, and a
non-empty pending token is flushed. -/
theorem token_flush_only_nonempty_witness :
    tokenize_input (" \t ") = [] ∧ parse_input (" \t ") = [] :=
  token_flush_only_nonempty.2.2.2.2 (" \t ") (by decide)

end Shell
